import Mathlib

/-!
# Verification of the batch media-processing core of `video_app_v8.py`

Shallow embedding of the core helpers and batch loops of `video_app_v8.py`.

Pure text-processing helpers (`parse_ffmpeg_time`, `parse_episode_range`,
`clean_log_line`, the percent extraction of `on_progress_update`) are
translated directly, working on lists of characters; Python `float`/`int`
conversions become `Option`-valued parsers (an exception in the source is a
`none` here).  Real numbers are modelled as exact rationals (`ℚ`): every
numeric literal exercised below is a finite decimal, so the translation is
faithful up to floating-point rounding, which is outside this embedding.

The subprocess-driven batch loops (`download_episodes`, `extract_subtitles`,
`process_video`) are modelled as folds over per-item environments that record
the facts the code branches on: whether the declared output artifact already
exists on disk before the item runs, the child's exit code, whether the
expected artifact exists afterwards, and the raw output lines captured while
streaming.  The `ScriptWorker` thread is modelled as a trace semantics: the
pipeline body emits a list of actions (log, progress, stop-flag set) and the
worker delivers the events the source actually forwards.
-/

/- Batteries marks the `Rat` field operations `@[irreducible]`, which blocks
`decide` on concrete rational computations; restore the default
transparency so the embedded parsers evaluate. -/
set_option allowUnsafeReducibility true in
attribute [semireducible] Rat.add Rat.mul Rat.inv Rat.sub Rat.neg Rat.div Rat.ofScientific

/-! ## Character-list utilities (Python string primitives) -/

/-- Python `str.strip()` on a list of characters: drop whitespace at both
ends. -/
def pyStripL (l : List Char) : List Char :=
  ((l.dropWhile Char.isWhitespace).reverse.dropWhile Char.isWhitespace).reverse

/-- Python `str.split(sep)` (single-character separator), auxiliary. -/
def pySplitAux (sep : Char) : List Char → List Char → List (List Char)
  | [], acc => [acc.reverse]
  | c :: rest, acc =>
    if c == sep then acc.reverse :: pySplitAux sep rest []
    else pySplitAux sep rest (c :: acc)

/-- Python `str.split(sep)` for a single-character separator:
`"a:b".split(':') = ["a", "b"]`, `"".split(':') = [""]`. -/
def pySplit (sep : Char) (l : List Char) : List (List Char) :=
  pySplitAux sep l []

/-- Does `pat` occur at the head of `l`? -/
def listStartsWith : List Char → List Char → Bool
  | [], _ => true
  | _ :: _, [] => false
  | p :: ps, c :: cs => p == c && listStartsWith ps cs

/-- Python `pat in l` (substring containment). -/
def containsSub (l pat : List Char) : Bool :=
  match l with
  | [] => pat.isEmpty
  | _ :: rest => listStartsWith pat l || containsSub rest pat

/-- Python `str.lower()` (ASCII range; every keyword tested below is
ASCII). -/
def pyLowerL (l : List Char) : List Char :=
  l.map Char.toLower

/-- Numeric value of a digit run. -/
def digitsVal (ds : List Char) : Nat :=
  ds.foldl (fun a c => 10 * a + (c.toNat - 48)) 0

/-- Value of a digit run read as a decimal fraction (the part after the
point). -/
def fracVal (ds : List Char) : ℚ :=
  (digitsVal ds : ℚ) / (10 : ℚ) ^ ds.length

/-! ## Python numeric conversions

`float(s)` / `int(s)` raise `ValueError` on malformed input; the embedding
returns `none` there.  The `float` model covers finite decimal literals with
optional sign and exponent — Python's `inf`/`nan` literals and digit
underscores fall outside the rational embedding and are not produced by any
tool output the claims exercise. -/

/-- Consume an optional leading sign; `true` means negative. -/
def parseSign : List Char → Bool × List Char
  | '-' :: r => (true, r)
  | '+' :: r => (false, r)
  | l => (false, l)

/-- Mantissa of a float literal: `digits`, `digits.digits`, `digits.` or
`.digits`. -/
def parseMantissa (l : List Char) : Option (ℚ × List Char) :=
  let ip := l.takeWhile Char.isDigit
  let r1 := l.dropWhile Char.isDigit
  match r1 with
  | '.' :: r2 =>
    let fp := r2.takeWhile Char.isDigit
    let r3 := r2.dropWhile Char.isDigit
    if ip.isEmpty && fp.isEmpty then none
    else some ((digitsVal ip : ℚ) + fracVal fp, r3)
  | _ => if ip.isEmpty then none else some ((digitsVal ip : ℚ), r1)

/-- Exponent part of a float literal: `e`/`E`, optional sign, digits. -/
def parseExponent (l : List Char) : Option (Int × List Char) :=
  match l with
  | c :: r =>
    if c == 'e' || c == 'E' then
      let (neg, r1) := parseSign r
      let ds := r1.takeWhile Char.isDigit
      let r2 := r1.dropWhile Char.isDigit
      if ds.isEmpty then none
      else some ((if neg then -(digitsVal ds : Int) else (digitsVal ds : Int)), r2)
    else none
  | [] => none

/-- Python `float(s)` on a character list, as an exact rational. -/
def pyFloatL (l : List Char) : Option ℚ :=
  let t := pyStripL l
  let (neg, r0) := parseSign t
  match parseMantissa r0 with
  | none => none
  | some (m, r1) =>
    match r1 with
    | [] => some (if neg then -m else m)
    | _ =>
      match parseExponent r1 with
      | some (e, []) => some ((if neg then -m else m) * (10 : ℚ) ^ e)
      | _ => none

/-- Python `int(s)`: optional surrounding whitespace, optional sign, a
nonempty digit run. -/
def pyIntL (l : List Char) : Option Int :=
  let t := pyStripL l
  let (neg, r0) := parseSign t
  if r0.isEmpty then none
  else if r0.all Char.isDigit then
    some (if neg then -(digitsVal r0 : Int) else (digitsVal r0 : Int))
  else none

/-! ## `parse_ffmpeg_time` (source lines 389–413)

```python
def parse_ffmpeg_time(time_str):
    try:
        time_str = time_str.strip()
        parts = time_str.split(':')
        if len(parts) == 3:
            return float(parts[0])*3600 + float(parts[1])*60 + float(parts[2])
        elif len(parts) == 2:
            return float(parts[0])*60 + float(parts[1])
        else:
            return float(time_str)
    except (ValueError, IndexError):
        return None
```
-/

/-- Embedding of `parse_ffmpeg_time`.  The `try/except` around the `float`
calls becomes the `Option` plumbing: any failed conversion yields `none`. -/
def parse_ffmpeg_time (time_str : String) : Option ℚ :=
  let t := pyStripL time_str.data
  match pySplit ':' t with
  | [h, m, s] =>
    match pyFloatL h, pyFloatL m, pyFloatL s with
    | some hv, some mv, some sv => some (hv * 3600 + mv * 60 + sv)
    | _, _, _ => none
  | [m, s] =>
    match pyFloatL m, pyFloatL s with
    | some mv, some sv => some (mv * 60 + sv)
    | _, _ => none
  | _ => pyFloatL t

/-- A timecode string is malformed when some `float` conversion the code
would attempt on it fails. -/
def ffmpeg_time_malformed (s : String) : Bool :=
  match pySplit ':' (pyStripL s.data) with
  | [h, m, sec] => (pyFloatL h).isNone || (pyFloatL m).isNone || (pyFloatL sec).isNone
  | [m, sec] => (pyFloatL m).isNone || (pyFloatL sec).isNone
  | _ => (pyFloatL (pyStripL s.data)).isNone

/-- C8: the timecode parser maps `"00:01:30.50"` to `90.5` and
`"01:00:00.00"` to `3600.0`, and whenever a `float` conversion the code
attempts fails (a malformed timecode) it returns `none`; the embedding is a
total function into `Option`, so no exception escapes. -/
theorem parse_ffmpeg_time_spec :
    parse_ffmpeg_time "00:01:30.50" = some (181 / 2)
    ∧ parse_ffmpeg_time "01:00:00.00" = some 3600
    ∧ ∀ s : String, ffmpeg_time_malformed s = true → parse_ffmpeg_time s = none := by
  refine ⟨by decide, by decide, fun s h => ?_⟩
  unfold parse_ffmpeg_time
  unfold ffmpeg_time_malformed at h
  rcases hsp : pySplit ':' (pyStripL s.data) with _ | ⟨a, _ | ⟨b, _ | ⟨c, _ | _⟩⟩⟩ <;>
    simp only [hsp] at h ⊢ <;>
    [skip; skip;
     (rcases hfa : pyFloatL a with _ | va <;> rcases hfb : pyFloatL b with _ | vb <;>
        simp_all);
     (rcases hfa : pyFloatL a with _ | va <;> rcases hfb : pyFloatL b with _ | vb <;>
        rcases hfc : pyFloatL c with _ | vc <;> simp_all);
     skip] <;>
    simp_all

/-- Witness for `parse_ffmpeg_time_spec`: the string `"abc"` is malformed and
parses to `none`. -/
theorem parse_ffmpeg_time_spec_witness :
    ffmpeg_time_malformed "abc" = true ∧ parse_ffmpeg_time "abc" = none :=
  ⟨by decide, parse_ffmpeg_time_spec.2.2 "abc" (by decide)⟩

/-! ## `parse_episode_range` (source lines 605–641)

```python
def parse_episode_range(range_str):
    episodes = []
    parts = range_str.split(',')
    for part in parts:
        part = part.strip()
        if '-' in part:
            try:
                start, end = part.split('-')
                episodes.extend(range(int(start.strip()), int(end.strip()) + 1))
            except (ValueError, IndexError):
                continue
        else:
            try:
                episodes.append(int(part))
            except ValueError:
                continue
    return episodes
```
-/

/-- Python `range(start, end + 1)` as a list: empty when `end < start`. -/
def pyRangeIncl (start e : Int) : List Int :=
  (List.range (e + 1 - start).toNat).map (fun i => start + i)

/-- Contribution of one comma-separated token of the range string.  A dash
token with exactly two sides adds the inclusive range (a `split('-')` with
more pieces makes the tuple unpacking raise, so the token is skipped); a
plain token adds its single number; any failed `int` conversion contributes
nothing. -/
def episodeToken (part : List Char) : List Int :=
  let p := pyStripL part
  if containsSub p ['-'] then
    match pySplit '-' p with
    | [a, b] =>
      match pyIntL (pyStripL a), pyIntL (pyStripL b) with
      | some s, some e => pyRangeIncl s e
      | _, _ => []
    | _ => []
  else
    match pyIntL p with
    | some n => [n]
    | none => []

/-- Embedding of `parse_episode_range`: fold the token contributions over the
comma-separated parts, in order. -/
def parse_episode_range (range_str : String) : List Int :=
  (pySplit ',' range_str.data).foldl (fun acc part => acc ++ episodeToken part) []

/-- Folding list-append of per-element contributions is concatenation of the
per-element contributions. -/
theorem foldl_append_eq_flatten {α β : Type} (f : α → List β) :
    ∀ (l : List α) (acc : List β),
      l.foldl (fun a x => a ++ f x) acc = acc ++ (l.map f).flatten := by
  intro l
  induction l with
  | nil => intro acc; simp
  | cons x xs ih => intro acc; simp [ih, List.append_assoc]

/-- C7: the range resolver maps `"1-3,5,7-9"` to `[1,2,3,5,7,8,9]` and
`"2,1"` to `[2,1]` (token order preserved); the reversed range `"5-3"`
contributes nothing; tokens are processed independently (the whole parse is
the concatenation of per-token contributions, so a malformed token is
skipped without aborting the rest), and non-numeric, reversed and empty
tokens each contribute the empty list. -/
theorem parse_episode_range_spec :
    parse_episode_range "1-3,5,7-9" = [1, 2, 3, 5, 7, 8, 9]
    ∧ parse_episode_range "2,1" = [2, 1]
    ∧ parse_episode_range "5-3" = []
    ∧ (∀ s : String,
        parse_episode_range s = ((pySplit ',' s.data).map episodeToken).flatten)
    ∧ episodeToken ['a', 'b', 'c'] = []
    ∧ episodeToken ['5', '-', '3'] = []
    ∧ episodeToken [] = []
    ∧ ∀ (part : List Char) (rest : List (List Char)),
        episodeToken part = [] →
        (part :: rest).foldl (fun acc p => acc ++ episodeToken p) [] =
          rest.foldl (fun acc p => acc ++ episodeToken p) [] := by
  refine ⟨by decide, by decide, by decide, fun s => ?_, by decide, by decide, by decide,
    fun part rest h => ?_⟩
  · exact foldl_append_eq_flatten episodeToken _ []
  · simp [h]

/-- Witness for `parse_episode_range_spec`: instantiate the universally
quantified parts at concrete inputs. -/
theorem parse_episode_range_spec_witness :
    parse_episode_range "x,2" = ((pySplit ',' "x,2".data).map episodeToken).flatten
    ∧ episodeToken ['x'] = []
    ∧ (['x'] :: [['2']]).foldl (fun acc p => acc ++ episodeToken p) [] =
        [['2']].foldl (fun acc p => acc ++ episodeToken p) [] :=
  ⟨parse_episode_range_spec.2.2.2.1 "x,2", by decide,
    parse_episode_range_spec.2.2.2.2.2.2.2 ['x'] [['2']] (by decide)⟩

/-! ## Combined batch progress: `on_progress_update` (source lines 5300–5331)

```python
def on_progress_update(self, current, total, filename):
    file_percentage = None
    if filename and '(' in filename and '%' in filename:
        match = re.search(r'\((\d+\.?\d*)%\)', filename)
        if match:
            file_percentage = float(match.group(1))
    if total > 0:
        if file_percentage is not None:
            completed_files_progress = ((current - 1) / total) * 100 if current > 1 else 0
            current_file_progress = (file_percentage / 100) * (100 / total)
            combined_percent = completed_files_progress + current_file_progress
            percent = int(min(100, max(0, combined_percent)))
        else:
            percent = int((current / total) * 100)
        self.progress_bar.setValue(percent)
    else:
        self.progress_bar.setRange(0, 0)   # indeterminate
```
-/

/-- Match of the regex `\((\d+\.?\d*)%\)` anchored at the head of `l`: an
opening parenthesis, a nonempty digit run, optionally a point and a further
digit run, then `%)`.  (The regex' backtracking cannot produce any other
match here: shrinking a digit run always leaves a digit where `%` is
required.)  Returns the value of the captured group. -/
def pctGroupAt (l : List Char) : Option ℚ :=
  match l with
  | '(' :: r =>
    let ds := r.takeWhile Char.isDigit
    let r1 := r.dropWhile Char.isDigit
    if ds.isEmpty then none
    else
      match r1 with
      | '.' :: r2 =>
        let fs := r2.takeWhile Char.isDigit
        let r3 := r2.dropWhile Char.isDigit
        match r3 with
        | '%' :: ')' :: _ => some ((digitsVal ds : ℚ) + fracVal fs)
        | _ => none
      | '%' :: ')' :: _ => some ((digitsVal ds : ℚ))
      | _ => none
  | _ => none

/-- `re.search`: try the pattern at every position, leftmost match wins. -/
def searchPct : List Char → Option ℚ
  | [] => none
  | c :: rest =>
    match pctGroupAt (c :: rest) with
    | some v => some v
    | none => searchPct rest

/-- Per-item percentage extraction of `on_progress_update`: the regex search
guarded by the `'(' in filename and '%' in filename` pre-check (`float` on a
matched digit group cannot fail). -/
def extractFilePct (filename : String) : Option ℚ :=
  if filename.data.isEmpty then none
  else if containsSub filename.data ['('] && containsSub filename.data ['%'] then
    searchPct filename.data
  else none

/-- Python `int()` on a finite real value: truncation toward zero. -/
def pyTrunc (q : ℚ) : Int := if 0 ≤ q then ⌊q⌋ else ⌈q⌉

/-- The combined percentage of `on_progress_update` before clamping and
truncation, for a per-item percentage `p`. -/
def combinedPct (current total : Int) (p : ℚ) : ℚ :=
  (if 1 < current then (((current : ℚ) - 1) / (total : ℚ)) * 100 else 0)
    + (p / 100) * (100 / (total : ℚ))

/-- Embedding of the percent computation of `on_progress_update`: the value
passed to `setValue`, or `none` when the bar is switched to indeterminate
mode (`total ≤ 0`). -/
def on_progress_update (current total : Int) (filename : String) : Option Int :=
  if 0 < total then
    match extractFilePct filename with
    | some p => some (pyTrunc (min 100 (max 0 (combinedPct current total p))))
    | none => some (pyTrunc (((current : ℚ) / (total : ℚ)) * 100))
  else none

/-- `pyTrunc` is monotone. -/
theorem pyTrunc_mono {x y : ℚ} (h : x ≤ y) : pyTrunc x ≤ pyTrunc y := by
  unfold pyTrunc
  by_cases hx : 0 ≤ x
  · have hy : 0 ≤ y := le_trans hx h
    simp only [hx, hy, if_true]
    exact Int.floor_le_floor h
  · by_cases hy : 0 ≤ y
    · simp only [hx, hy, if_true, if_false]
      have h1 : (⌈x⌉ : Int) ≤ 0 := Int.ceil_le.mpr (by exact_mod_cast le_of_not_le hx)
      have h2 : (0 : Int) ≤ ⌊y⌋ := Int.le_floor.mpr (by exact_mod_cast hy)
      omega
    · simp only [hx, hy, if_false]
      exact Int.ceil_le_ceil h

/-- The clamped combined percentage, compared through `pyTrunc`. -/
theorem pyTrunc_clamp_mono {x y : ℚ} (h : x ≤ y) :
    pyTrunc (min 100 (max 0 x)) ≤ pyTrunc (min 100 (max 0 y)) :=
  pyTrunc_mono (min_le_min le_rfl (max_le_max le_rfl h))

/-- The monotonicity core: the pre-clamp combined percentage does not
decrease when the run advances from item `c` at `p₁ ≤ 100` percent to item
`c + 1` at `p₂ ≥ 0` percent. -/
theorem combinedPct_step_le {c t : Int} {p₁ p₂ : ℚ} (ht : 0 < t) (hc : 1 ≤ c)
    (hp₁ : p₁ ≤ 100) (hp₂ : 0 ≤ p₂) :
    combinedPct c t p₁ ≤ combinedPct (c + 1) t p₂ := by
  have hT : (0 : ℚ) < (t : ℚ) := by exact_mod_cast ht
  have hTne : (t : ℚ) ≠ 0 := ne_of_gt hT
  have key₁ : combinedPct c t p₁ ≤ ((c : ℚ) / t) * 100 := by
    unfold combinedPct
    rcases lt_or_eq_of_le hc with hc1 | hc1
    · simp only [hc1, if_true]
      have : (p₁ / 100) * (100 / (t : ℚ)) ≤ 100 / t := by
        have h1 : p₁ / 100 ≤ 1 := by linarith [(div_le_one (by norm_num : (0:ℚ) < 100)).mpr hp₁]
        have h2 : (0 : ℚ) ≤ 100 / t := by positivity
        calc (p₁ / 100) * (100 / (t : ℚ)) ≤ 1 * (100 / t) :=
              mul_le_mul_of_nonneg_right h1 h2
          _ = 100 / t := one_mul _
      have heq : (((c : ℚ) - 1) / t) * 100 + 100 / t = ((c : ℚ) / t) * 100 := by
        field_simp; ring
      linarith
    · subst hc1
      simp only [lt_irrefl, if_false]
      have h1 : p₁ / 100 ≤ 1 := by linarith [(div_le_one (by norm_num : (0:ℚ) < 100)).mpr hp₁]
      have h2 : (0 : ℚ) ≤ 100 / t := by positivity
      have : (0 : ℚ) + (p₁ / 100) * (100 / (t : ℚ)) ≤ 100 / t := by
        rw [zero_add]
        calc (p₁ / 100) * (100 / (t : ℚ)) ≤ 1 * (100 / t) :=
              mul_le_mul_of_nonneg_right h1 h2
          _ = 100 / t := one_mul _
      have heq : (100 : ℚ) / t = (((1 : Int) : ℚ) / t) * 100 := by push_cast; ring
      linarith [this, heq.le]
  have key₂ : ((c : ℚ) / t) * 100 ≤ combinedPct (c + 1) t p₂ := by
    unfold combinedPct
    have hc2 : 1 < c + 1 := by omega
    simp only [hc2, if_true]
    have hcast : (((c + 1 : Int) : ℚ) - 1) = (c : ℚ) := by push_cast; ring
    rw [hcast]
    have : (0 : ℚ) ≤ (p₂ / 100) * (100 / (t : ℚ)) := by positivity
    linarith
  exact le_trans key₁ key₂

/-- C1 counterexample: the combined percent is not clamped to the maximum
seen so far.  Two successive progress events of the same one-item run, the
second carrying a per-item sub-percentage that glitched backwards, display
50 and then 40 — the combined percent regresses. -/
theorem on_progress_not_clamped_to_max :
    on_progress_update 1 1 "v.mp4 (50.0%)" = some 50
    ∧ on_progress_update 1 1 "v.mp4 (40.0%)" = some 40
    ∧ ¬ (50 : Int) ≤ 40 := by decide

/-- C1 amended: the displayed combined percent is clamped to `[0, 100]`
(not to the maximum seen so far); it is non-decreasing while the per-item
percentage of the current item does not decrease and when the batch advances
to the next item, and it is exactly 100 once the final item's per-item
percentage reaches 100 (exact arithmetic; the source computes with binary
floats). -/
theorem on_progress_update_monotone_spec :
    (∀ (c t : Int) (fn : String) (p : ℚ), 0 < t → extractFilePct fn = some p →
      ∀ v : Int, on_progress_update c t fn = some v → 0 ≤ v ∧ v ≤ 100)
    ∧ (∀ (c t : Int) (fn₁ fn₂ : String) (p₁ p₂ : ℚ), 0 < t →
        extractFilePct fn₁ = some p₁ → extractFilePct fn₂ = some p₂ → p₁ ≤ p₂ →
        ∀ v₁ v₂ : Int, on_progress_update c t fn₁ = some v₁ →
          on_progress_update c t fn₂ = some v₂ → v₁ ≤ v₂)
    ∧ (∀ (c t : Int) (fn₁ fn₂ : String) (p₁ p₂ : ℚ), 0 < t → 1 ≤ c →
        extractFilePct fn₁ = some p₁ → extractFilePct fn₂ = some p₂ →
        p₁ ≤ 100 → 0 ≤ p₂ →
        ∀ v₁ v₂ : Int, on_progress_update c t fn₁ = some v₁ →
          on_progress_update (c + 1) t fn₂ = some v₂ → v₁ ≤ v₂)
    ∧ (∀ (t : Int) (fn : String), 0 < t → extractFilePct fn = some 100 →
        on_progress_update t t fn = some 100) := by
  refine ⟨?_, ?_, ?_, ?_⟩
  · intro c t fn p ht hfp v hv
    unfold on_progress_update at hv
    rw [if_pos ht, hfp] at hv
    have hv' : v = pyTrunc (min 100 (max 0 (combinedPct c t p))) := by
      exact (Option.some_inj.mp hv).symm
    subst hv'
    have h0 : (0 : ℚ) ≤ min 100 (max 0 (combinedPct c t p)) :=
      le_min (by norm_num) (le_max_left 0 _)
    have h100 : min (100 : ℚ) (max 0 (combinedPct c t p)) ≤ 100 := min_le_left _ _
    constructor
    · unfold pyTrunc
      rw [if_pos h0]
      exact Int.le_floor.mpr (by exact_mod_cast h0)
    · unfold pyTrunc
      rw [if_pos h0]
      calc ⌊min (100 : ℚ) (max 0 (combinedPct c t p))⌋ ≤ ⌊(100 : ℚ)⌋ :=
            Int.floor_le_floor h100
        _ = 100 := by norm_num
  · intro c t fn₁ fn₂ p₁ p₂ ht h₁ h₂ hle v₁ v₂ hv₁ hv₂
    unfold on_progress_update at hv₁ hv₂
    rw [if_pos ht, h₁] at hv₁
    rw [if_pos ht, h₂] at hv₂
    have e₁ := (Option.some_inj.mp hv₁).symm
    have e₂ := (Option.some_inj.mp hv₂).symm
    subst e₁; subst e₂
    refine pyTrunc_clamp_mono ?_
    unfold combinedPct
    have hT : (0 : ℚ) < (t : ℚ) := by exact_mod_cast ht
    have h2 : (0 : ℚ) ≤ 100 / (t : ℚ) := by positivity
    have : (p₁ / 100) * (100 / (t : ℚ)) ≤ (p₂ / 100) * (100 / (t : ℚ)) := by
      apply mul_le_mul_of_nonneg_right _ h2
      exact div_le_div_of_nonneg_right hle (by norm_num) |>.trans_eq rfl
    linarith
  · intro c t fn₁ fn₂ p₁ p₂ ht hc h₁ h₂ hp₁ hp₂ v₁ v₂ hv₁ hv₂
    unfold on_progress_update at hv₁ hv₂
    rw [if_pos ht, h₁] at hv₁
    rw [if_pos ht, h₂] at hv₂
    have e₁ := (Option.some_inj.mp hv₁).symm
    have e₂ := (Option.some_inj.mp hv₂).symm
    subst e₁; subst e₂
    exact pyTrunc_clamp_mono (combinedPct_step_le ht hc hp₁ hp₂)
  · intro t fn ht hfp
    unfold on_progress_update
    rw [if_pos ht, hfp]
    have hT : (0 : ℚ) < (t : ℚ) := by exact_mod_cast ht
    have hTne : (t : ℚ) ≠ 0 := ne_of_gt hT
    have hcomb : combinedPct t t 100 = 100 := by
      unfold combinedPct
      by_cases h1 : 1 < t
      · rw [if_pos h1]
        field_simp
        ring
      · have ht1 : t = 1 := by omega
        subst ht1
        norm_num
    simp only [hcomb]
    have : min (100 : ℚ) (max 0 100) = 100 := by norm_num
    rw [this]
    unfold pyTrunc
    norm_num

/-- Witness for `on_progress_update_monotone_spec`: instantiations at
concrete events of a two-item and a three-item run. -/
theorem on_progress_update_monotone_spec_witness :
    (0 ≤ (45 : Int) ∧ (45 : Int) ≤ 100)
    ∧ (45 : Int) ≤ 47
    ∧ (45 : Int) ≤ 55
    ∧ on_progress_update 3 3 "(100%)" = some 100 :=
  ⟨on_progress_update_monotone_spec.1 1 2 "(90%)" 90 (by decide) (by decide) 45 (by decide),
   on_progress_update_monotone_spec.2.1 1 2 "(90%)" "(94%)" 90 94 (by decide) (by decide)
     (by decide) (by decide) 45 47 (by decide) (by decide),
   on_progress_update_monotone_spec.2.2.1 1 2 "(90%)" "(10%)" 90 10 (by decide) (by decide)
     (by decide) (by decide) (by decide) (by decide) 45 55 (by decide) (by decide),
   on_progress_update_monotone_spec.2.2.2 3 "(100%)" (by decide) (by decide)⟩

/-- C3 counterexample: when the active event carries no per-item percentage
(`"a.mkv"`), the code falls back to `int((current/total)*100)` and displays
50 for item 1 of 2, not the claimed `100*((1-1)/2 + 0/2) = 0`. -/
theorem on_progress_formula_indeterminate_cex :
    extractFilePct "a.mkv" = none
    ∧ on_progress_update 1 2 "a.mkv" = some 50
    ∧ (100 : ℚ) * ((1 - 1) / 2 + 0 / 2) = 0
    ∧ (50 : Int) ≠ 0 := by decide

/-- C3 amended: when the active event carries a per-item percentage `p`, the
displayed value is the spec formula `100*((item_index-1)/N + (p/100)/N)`
clamped to `[0, 100]` and truncated to an integer; when the event carries no
percentage, the code instead displays `int((item_index/N)*100)` — treating
the current item as complete, not as fraction 0. -/
theorem on_progress_update_formula_spec :
    (∀ (c t : Int) (fn : String) (p : ℚ), 0 < t → 1 ≤ c → extractFilePct fn = some p →
      on_progress_update c t fn
        = some (pyTrunc (min 100 (max 0 (100 * (((c : ℚ) - 1) / t + p / 100 / t))))))
    ∧ ∀ (c t : Int) (fn : String), 0 < t → extractFilePct fn = none →
      on_progress_update c t fn = some (pyTrunc (((c : ℚ) / t) * 100)) := by
  constructor
  · intro c t fn p ht hc hfp
    unfold on_progress_update
    rw [if_pos ht, hfp]
    have hT : (0 : ℚ) < (t : ℚ) := by exact_mod_cast ht
    have hTne : (t : ℚ) ≠ 0 := ne_of_gt hT
    have hcomb : combinedPct c t p = 100 * (((c : ℚ) - 1) / t + p / 100 / t) := by
      unfold combinedPct
      rcases lt_or_eq_of_le hc with hc1 | hc1
      · rw [if_pos hc1]
        field_simp
        ring
      · subst hc1
        rw [if_neg (lt_irrefl 1)]
        push_cast
        field_simp
        ring
    simp only [hcomb]
  · intro c t fn ht hfp
    unfold on_progress_update
    rw [if_pos ht, hfp]

/-- Witness for `on_progress_update_formula_spec`: item 2 of 4 at 25%, and a
percentage-free event for item 1 of 2. -/
theorem on_progress_update_formula_spec_witness :
    on_progress_update 2 4 "e.mp4 (25.0%)"
      = some (pyTrunc (min 100 (max 0 (100 * (((2 : ℚ) - 1) / 4 + 25 / 100 / 4)))))
    ∧ on_progress_update 1 2 "a.mkv" = some (pyTrunc (((1 : ℚ) / 2) * 100)) :=
  ⟨on_progress_update_formula_spec.1 2 4 "e.mp4 (25.0%)" 25 (by decide) (by decide) (by decide),
   on_progress_update_formula_spec.2 1 2 "a.mkv" (by decide) (by decide)⟩

/-! ## Batch loops

Each subprocess-driven batch loop is modelled as a fold over per-item
environments recording the facts the source branches on.

* `download_episodes` (source lines 725–845): for every command line the
  loop builds the tool command and calls `subprocess.Popen` directly — there
  is no check of any existing output before the spawn (the `preExists` field
  below records the on-disk fact, and the source never reads it).  After
  `process.wait()`: exit code 0 with a matching `output_dir.glob` candidate
  appends to `downloaded_files`; exit code 0 without a candidate logs only a
  warning; a non-zero exit logs the error with `output_lines[-5:]`.  The
  function returns `len(downloaded_files) > 0`.
* `extract_subtitles` (source lines 848–942): an existing `srt_file` makes
  the item log "Skipping … already exists" and `continue` before any
  subprocess; otherwise ffmpeg runs and success requires
  `returncode == 0 and srt_file.exists()`, failure logs
  `error_lines[-5:]`.  Returns `success_count > 0`.
* `process_video` (source lines 1198–1489): an existing `out_file` or a
  missing subtitle file makes the item `continue` before any subprocess
  (the duration probe included); otherwise ffmpeg runs and success requires
  `returncode == 0 and out_file.exists()`, failure logs
  `error_lines[-10:]`.  Returns `success_count > 0`.
-/

/-- Per-item facts the `download_episodes` and `extract_subtitles` loops
branch on. -/
structure ItemEnv where
  preExists : Bool
  exit : Int
  artifactAfter : Bool
  outputLines : List String
deriving DecidableEq

/-- Per-item facts the `process_video` loop branches on. -/
structure VideoItemEnv where
  outExists : Bool
  srtFound : Bool
  exit : Int
  artifactAfter : Bool
  errorLines : List String
deriving DecidableEq

/-- Recorded state of one batch item after its turn. -/
inductive ItemOutcome where
  | skipped
  | succeeded
  | failed (errTail : List String)
deriving DecidableEq

/-- Python `l[-n:]` for `0 < n`: the last `n` elements. -/
def lastN (n : Nat) (l : List String) : List String := l.drop (l.length - n)

/-- Accumulator of a batch loop: subprocess invocations performed so far,
items counted as succeeded, and the per-item records in order. -/
structure BatchAcc where
  invocations : Nat
  succeededCount : Nat
  records : List ItemOutcome
deriving DecidableEq

/-- Outcome of one `download_episodes` item: the subprocess always runs; the
zero-exit-no-candidate branch logs a warning and records nothing as
downloaded; the non-zero-exit branch logs the last 5 output lines. -/
def download_record (e : ItemEnv) : ItemOutcome :=
  if e.exit = 0 then
    if e.artifactAfter then .succeeded else .failed []
  else .failed (lastN 5 e.outputLines)

/-- One iteration of the `download_episodes` loop: `Popen` is invoked
unconditionally (the source performs no output-existence check), then the
outcome is recorded. -/
def download_step (acc : BatchAcc) (e : ItemEnv) : BatchAcc :=
  let acc := { acc with invocations := acc.invocations + 1 }
  if e.exit = 0 then
    if e.artifactAfter then
      { acc with succeededCount := acc.succeededCount + 1
                 records := acc.records ++ [.succeeded] }
    else { acc with records := acc.records ++ [.failed []] }
  else { acc with records := acc.records ++ [.failed (lastN 5 e.outputLines)] }

/-- The `download_episodes` item loop. -/
def download_episodes_run (items : List ItemEnv) : BatchAcc :=
  items.foldl download_step ⟨0, 0, []⟩

/-- `return len(downloaded_files) > 0`. -/
def download_episodes_result (items : List ItemEnv) : Bool :=
  0 < (download_episodes_run items).succeededCount

/-- Outcome of one `extract_subtitles` item. -/
def extract_record (e : ItemEnv) : ItemOutcome :=
  if e.preExists then .skipped
  else if e.exit = 0 ∧ e.artifactAfter then .succeeded
  else .failed (lastN 5 e.outputLines)

/-- One iteration of the `extract_subtitles` loop: an existing subtitle file
skips the item before any subprocess; otherwise ffmpeg runs and success
requires exit code 0 and the subtitle file existing afterwards. -/
def extract_step (acc : BatchAcc) (e : ItemEnv) : BatchAcc :=
  if e.preExists then { acc with records := acc.records ++ [.skipped] }
  else
    let acc := { acc with invocations := acc.invocations + 1 }
    if e.exit = 0 ∧ e.artifactAfter then
      { acc with succeededCount := acc.succeededCount + 1
                 records := acc.records ++ [.succeeded] }
    else { acc with records := acc.records ++ [.failed (lastN 5 e.outputLines)] }

/-- The `extract_subtitles` item loop. -/
def extract_subtitles_run (items : List ItemEnv) : BatchAcc :=
  items.foldl extract_step ⟨0, 0, []⟩

/-- `return success_count > 0`. -/
def extract_subtitles_result (items : List ItemEnv) : Bool :=
  0 < (extract_subtitles_run items).succeededCount

/-- Outcome of one `process_video` item. -/
def process_record (e : VideoItemEnv) : ItemOutcome :=
  if e.outExists then .skipped
  else if !e.srtFound then .skipped
  else if e.exit = 0 ∧ e.artifactAfter then .succeeded
  else .failed (lastN 10 e.errorLines)

/-- One iteration of the `process_video` loop: an existing output file or a
missing subtitle skips the item before any subprocess (including the
duration probe); otherwise ffmpeg runs and success requires exit code 0 and
the output file existing afterwards. -/
def process_video_step (acc : BatchAcc) (e : VideoItemEnv) : BatchAcc :=
  if e.outExists then { acc with records := acc.records ++ [.skipped] }
  else if !e.srtFound then { acc with records := acc.records ++ [.skipped] }
  else
    let acc := { acc with invocations := acc.invocations + 1 }
    if e.exit = 0 ∧ e.artifactAfter then
      { acc with succeededCount := acc.succeededCount + 1
                 records := acc.records ++ [.succeeded] }
    else { acc with records := acc.records ++ [.failed (lastN 10 e.errorLines)] }

/-- The `process_video` item loop. -/
def process_video_run (items : List VideoItemEnv) : BatchAcc :=
  items.foldl process_video_step ⟨0, 0, []⟩

/-- `return success_count > 0`. -/
def process_video_result (items : List VideoItemEnv) : Bool :=
  0 < (process_video_run items).succeededCount

/-- Download item counted into `downloaded_files`. -/
def downloadOk (e : ItemEnv) : Bool := e.exit == 0 && e.artifactAfter

/-- Extract item that actually spawns ffmpeg. -/
def extractRuns (e : ItemEnv) : Bool := !e.preExists

/-- Extract item counted into `success_count`. -/
def extractOk (e : ItemEnv) : Bool := !e.preExists && (e.exit == 0 && e.artifactAfter)

/-- Process-video item that actually spawns ffmpeg. -/
def processRuns (e : VideoItemEnv) : Bool := !e.outExists && e.srtFound

/-- Process-video item counted into `success_count`. -/
def processOk (e : VideoItemEnv) : Bool :=
  !e.outExists && e.srtFound && (e.exit == 0 && e.artifactAfter)

/-- One `download_episodes` iteration, in closed form. -/
theorem download_step_eq (acc : BatchAcc) (e : ItemEnv) :
    download_step acc e =
      ⟨acc.invocations + 1,
       acc.succeededCount + (if downloadOk e then 1 else 0),
       acc.records ++ [download_record e]⟩ := by
  unfold download_step download_record downloadOk
  by_cases h1 : e.exit = 0 <;> by_cases h2 : e.artifactAfter <;> simp [h1, h2]

/-- Closed form of the `download_episodes` fold. -/
theorem download_run_char (items : List ItemEnv) : ∀ acc : BatchAcc,
    items.foldl download_step acc =
      ⟨acc.invocations + items.length,
       acc.succeededCount + items.countP downloadOk,
       acc.records ++ items.map download_record⟩ := by
  induction items with
  | nil => intro acc; simp
  | cons e rest ih =>
    intro acc
    rw [List.foldl_cons, download_step_eq, ih]
    by_cases hc : downloadOk e <;>
      simp [hc, List.countP_cons] <;> omega

/-- One `extract_subtitles` iteration, in closed form. -/
theorem extract_step_eq (acc : BatchAcc) (e : ItemEnv) :
    extract_step acc e =
      if e.preExists then ⟨acc.invocations, acc.succeededCount, acc.records ++ [.skipped]⟩
      else ⟨acc.invocations + 1,
            acc.succeededCount + (if extractOk e then 1 else 0),
            acc.records ++ [extract_record e]⟩ := by
  unfold extract_step extract_record extractOk
  by_cases h0 : e.preExists <;> by_cases h1 : e.exit = 0 <;> by_cases h2 : e.artifactAfter <;>
    simp [h0, h1, h2]

/-- Closed form of the `extract_subtitles` fold. -/
theorem extract_run_char (items : List ItemEnv) : ∀ acc : BatchAcc,
    items.foldl extract_step acc =
      ⟨acc.invocations + items.countP extractRuns,
       acc.succeededCount + items.countP extractOk,
       acc.records ++ items.map extract_record⟩ := by
  induction items with
  | nil => intro acc; simp
  | cons e rest ih =>
    intro acc
    rw [List.foldl_cons, extract_step_eq, ih]
    by_cases h0 : e.preExists
    · simp [h0, extractRuns, extractOk, extract_record, List.countP_cons]
    · by_cases hc : extractOk e <;>
        simp [h0, hc, extractRuns, List.countP_cons] <;> omega

/-- One `process_video` iteration, in closed form. -/
theorem process_step_eq (acc : BatchAcc) (e : VideoItemEnv) :
    process_video_step acc e =
      if !e.outExists && e.srtFound then
        ⟨acc.invocations + 1,
         acc.succeededCount + (if processOk e then 1 else 0),
         acc.records ++ [process_record e]⟩
      else ⟨acc.invocations, acc.succeededCount, acc.records ++ [.skipped]⟩ := by
  unfold process_video_step process_record processOk
  by_cases h0 : e.outExists <;> by_cases hs : e.srtFound <;>
    by_cases h1 : e.exit = 0 <;> by_cases h2 : e.artifactAfter <;>
    simp [h0, hs, h1, h2]

/-- Closed form of the `process_video` fold. -/
theorem process_run_char (items : List VideoItemEnv) : ∀ acc : BatchAcc,
    items.foldl process_video_step acc =
      ⟨acc.invocations + items.countP processRuns,
       acc.succeededCount + items.countP processOk,
       acc.records ++ items.map process_record⟩ := by
  induction items with
  | nil => intro acc; simp
  | cons e rest ih =>
    intro acc
    rw [List.foldl_cons, process_step_eq, ih]
    by_cases h0 : e.outExists
    · have hr : (!e.outExists && e.srtFound) = false := by simp [h0]
      simp [hr, h0, processRuns, processOk, process_record, List.countP_cons]
    · by_cases hs : e.srtFound
      · have hr : (!e.outExists && e.srtFound) = true := by simp [h0, hs]
        by_cases hc : processOk e <;>
          simp [hr, h0, hs, hc, processRuns, List.countP_cons] <;> omega
      · have hr : (!e.outExists && e.srtFound) = false := by simp [hs]
        simp [hr, h0, hs, processRuns, processOk, process_record, List.countP_cons]

/-- C2 counterexample: a `download_episodes` item whose declared output
already exists on disk still spawns its subprocess — re-running a
one-command batch with the output present performs 1 invocation, not the
claimed 0. -/
theorem download_no_skip_cex :
    (download_episodes_run [⟨true, 0, true, []⟩]).invocations = 1
    ∧ (1 : Nat) ≠ 0 := by decide

/-- C2 amended: `extract_subtitles` and `process_video` check the declared
output artifact before running an item — if it exists the item is marked
skipped and no subprocess is invoked, so re-running those batches with all
outputs present performs zero subprocess invocations and marks every item
skipped; `download_episodes`, however, performs no existence check and
invokes one subprocess per command line regardless of what is on disk. -/
theorem skip_if_exists_spec :
    (∀ items : List ItemEnv, (∀ e ∈ items, e.preExists = true) →
      (extract_subtitles_run items).invocations = 0
      ∧ (extract_subtitles_run items).records = items.map fun _ => ItemOutcome.skipped)
    ∧ (∀ items : List VideoItemEnv, (∀ e ∈ items, e.outExists = true) →
      (process_video_run items).invocations = 0
      ∧ (process_video_run items).records = items.map fun _ => ItemOutcome.skipped)
    ∧ (∀ items : List ItemEnv, (download_episodes_run items).invocations = items.length) := by
  refine ⟨fun items h => ⟨?_, ?_⟩, fun items h => ⟨?_, ?_⟩, fun items => ?_⟩
  · rw [extract_subtitles_run, extract_run_char]
    simp only [Nat.zero_add]
    exact List.countP_eq_zero.mpr fun e he => by simp [extractRuns, h e he]
  · rw [extract_subtitles_run, extract_run_char]
    simp only [List.nil_append]
    exact List.map_congr_left fun e he => by simp [extract_record, h e he]
  · rw [process_video_run, process_run_char]
    simp only [Nat.zero_add]
    exact List.countP_eq_zero.mpr fun e he => by simp [processRuns, h e he]
  · rw [process_video_run, process_run_char]
    simp only [List.nil_append]
    exact List.map_congr_left fun e he => by simp [process_record, h e he]
  · rw [download_episodes_run, download_run_char]
    simp

/-- Witness for `skip_if_exists_spec`: two-item batches whose outputs all
exist are fully skipped with zero invocations; a download batch always
invokes once per item. -/
theorem skip_if_exists_spec_witness :
    ((extract_subtitles_run [⟨true, 0, true, []⟩, ⟨true, 1, false, []⟩]).invocations = 0
      ∧ (extract_subtitles_run [⟨true, 0, true, []⟩, ⟨true, 1, false, []⟩]).records
          = [⟨true, 0, true, []⟩, (⟨true, 1, false, []⟩ : ItemEnv)].map
              fun _ => ItemOutcome.skipped)
    ∧ ((process_video_run [⟨true, true, 0, true, []⟩]).invocations = 0
      ∧ (process_video_run [⟨true, true, 0, true, []⟩]).records
          = [(⟨true, true, 0, true, []⟩ : VideoItemEnv)].map fun _ => ItemOutcome.skipped)
    ∧ (download_episodes_run [⟨true, 0, true, []⟩]).invocations
        = [(⟨true, 0, true, []⟩ : ItemEnv)].length :=
  ⟨skip_if_exists_spec.1 _ (by decide),
   skip_if_exists_spec.2.1 _ (by decide),
   skip_if_exists_spec.2.2 _⟩

/-- C5: in each batch loop an item is counted as succeeded iff the child
process exited with code 0 AND the expected output artifact exists on disk
afterwards — a zero exit code without the artifact is not a success — and
the batch counter counts exactly those items. -/
theorem success_requires_artifact_spec :
    (∀ e : ItemEnv, download_record e = .succeeded ↔ e.exit = 0 ∧ e.artifactAfter = true)
    ∧ (∀ e : ItemEnv, e.preExists = false →
        (extract_record e = .succeeded ↔ e.exit = 0 ∧ e.artifactAfter = true))
    ∧ (∀ e : VideoItemEnv, e.outExists = false → e.srtFound = true →
        (process_record e = .succeeded ↔ e.exit = 0 ∧ e.artifactAfter = true))
    ∧ (∀ items : List ItemEnv,
        (download_episodes_run items).succeededCount = items.countP downloadOk) := by
  refine ⟨fun e => ?_, fun e h0 => ?_, fun e h0 hs => ?_, fun items => ?_⟩
  · unfold download_record
    by_cases h1 : e.exit = 0 <;> by_cases h2 : e.artifactAfter <;> simp [h1, h2]
  · unfold extract_record
    by_cases h1 : e.exit = 0 <;> by_cases h2 : e.artifactAfter <;> simp [h0, h1, h2]
  · unfold process_record
    by_cases h1 : e.exit = 0 <;> by_cases h2 : e.artifactAfter <;> simp [h0, hs, h1, h2]
  · rw [download_episodes_run, download_run_char]
    simp

/-- Witness for `success_requires_artifact_spec`: a zero-exit download item
with no artifact is not a success; concrete instantiations of each part. -/
theorem success_requires_artifact_spec_witness :
    (download_record ⟨false, 0, false, []⟩ = .succeeded ↔ (0 : Int) = 0 ∧ false = true)
    ∧ (extract_record ⟨false, 0, true, []⟩ = .succeeded ↔ (0 : Int) = 0 ∧ true = true)
    ∧ (process_record ⟨false, true, 1, true, []⟩ = .succeeded ↔ (1 : Int) = 0 ∧ true = true)
    ∧ (download_episodes_run [⟨false, 0, false, []⟩]).succeededCount
        = [(⟨false, 0, false, []⟩ : ItemEnv)].countP downloadOk :=
  ⟨success_requires_artifact_spec.1 _,
   success_requires_artifact_spec.2.1 _ rfl,
   success_requires_artifact_spec.2.2.1 _ rfl rfl,
   success_requires_artifact_spec.2.2.2 _⟩

/-- C9: a failed item does not abort the batch — each loop records one
outcome per item in input order, so the items after a failure are processed
exactly as they would be alone; a failing item's record carries the tool's
last raw output lines (5 for downloads/extraction, 10 for video
processing); and the batch-level boolean result is true iff at least one
item succeeded. -/
theorem batch_failure_policy_spec :
    (∀ (xs : List ItemEnv) (e : ItemEnv) (ys : List ItemEnv),
      (download_episodes_run (xs ++ e :: ys)).records
        = xs.map download_record ++ download_record e :: ys.map download_record)
    ∧ (∀ e : ItemEnv, e.exit ≠ 0 → download_record e = .failed (lastN 5 e.outputLines))
    ∧ (∀ e : VideoItemEnv, e.outExists = false → e.srtFound = true →
        ¬(e.exit = 0 ∧ e.artifactAfter = true) →
        process_record e = .failed (lastN 10 e.errorLines))
    ∧ (∀ items : List ItemEnv,
        download_episodes_result items = true ↔ ∃ e ∈ items, downloadOk e = true)
    ∧ (∀ items : List VideoItemEnv,
        process_video_result items = true ↔ ∃ e ∈ items, processOk e = true) := by
  refine ⟨fun xs e ys => ?_, fun e h => ?_, fun e h0 hs h => ?_, fun items => ?_, fun items => ?_⟩
  · rw [download_episodes_run, download_run_char]
    simp
  · unfold download_record
    simp [h]
  · unfold process_record
    by_cases h1 : e.exit = 0 <;> by_cases h2 : e.artifactAfter <;> simp_all
  · rw [download_episodes_result, download_episodes_run, download_run_char]
    simp [List.countP_pos_iff]
  · rw [process_video_result, process_video_run, process_run_char]
    simp [List.countP_pos_iff]

/-- Witness for `batch_failure_policy_spec`: a middle failure is recorded
with its output tail and the following item still runs; results flip on a
single success. -/
theorem batch_failure_policy_spec_witness :
    (download_episodes_run
        ([⟨false, 0, true, []⟩] ++ (⟨false, 2, false, ["a", "b"]⟩ : ItemEnv)
          :: [⟨false, 0, true, []⟩])).records
      = [(⟨false, 0, true, []⟩ : ItemEnv)].map download_record
          ++ download_record ⟨false, 2, false, ["a", "b"]⟩
          :: [(⟨false, 0, true, []⟩ : ItemEnv)].map download_record
    ∧ download_record ⟨false, 2, false, ["a", "b"]⟩ = .failed (lastN 5 ["a", "b"])
    ∧ process_record ⟨false, true, 0, false, ["x"]⟩ = .failed (lastN 10 ["x"])
    ∧ (download_episodes_result [⟨false, 2, false, []⟩, ⟨false, 0, true, []⟩] = true
        ↔ ∃ e ∈ [(⟨false, 2, false, []⟩ : ItemEnv), ⟨false, 0, true, []⟩], downloadOk e = true)
    ∧ (process_video_result [⟨false, true, 1, false, []⟩] = true
        ↔ ∃ e ∈ [(⟨false, true, 1, false, []⟩ : VideoItemEnv)], processOk e = true) :=
  ⟨batch_failure_policy_spec.1 _ _ _,
   batch_failure_policy_spec.2.1 _ (by decide),
   batch_failure_policy_spec.2.2.1 _ rfl rfl (by decide),
   batch_failure_policy_spec.2.2.2.1 _,
   batch_failure_policy_spec.2.2.2.2 _⟩

/-! ## `ScriptWorker` and cancellation (source lines 2172–2216, 5364–5387)

```python
class ScriptWorker(QThread):
    def stop(self):
        self._stop_requested = True
        self.log_message.emit("⚠ Stop requested - cancelling operation...")
    def run(self):
        def log_callback(msg):
            if not self._stop_requested: self.log_message.emit(msg)
        def progress_callback(current, total, filename):
            if not self._stop_requested: self.progress_update.emit(...)
        self.kwargs['log_callback'] = log_callback
        self.kwargs['progress_callback'] = progress_callback
        try:
            result = self.script_func(*self.args, **self.kwargs)
            if self._stop_requested:
                self.log_message.emit("✗ Operation cancelled by user")
                self.finished.emit(False)
            else:
                self.finished.emit(result)
        except Exception as e:
            if not self._stop_requested: self.log_message.emit(f"Error: ...")
            self.finished.emit(False)

def stop_operation(self):
    if self.worker and self.worker.isRunning():
        self.worker.stop()
        QTimer.singleShot(3000, self.force_terminate_worker)

def force_terminate_worker(self):
    if self.worker and self.worker.isRunning():
        self.worker.terminate(); self.worker.wait()
        self.on_script_finished(False)
```

The pipeline functions receive only the two wrapped callbacks — no
reference to the worker or its flag — and none of them reads
`is_stop_requested` (the source defines it but never calls it), so the body
runs to completion and its subprocess spawns are unaffected by the flag.
The body is modelled as a list of actions; `setStop` marks the moment the
UI thread sets `_stop_requested`. -/

/-- One observable action of the pipeline body, interleaved with the moment
`ScriptWorker.stop` sets the flag. -/
inductive PAction where
  | plog (msg : String)
  | pprog (current total : Int) (filename : String)
  | pinvoke
  | setStop
deriving DecidableEq

/-- An event observable outside the worker. -/
inductive WEvent where
  | wlog (msg : String)
  | wprog (current total : Int) (filename : String)
  | winvoke
  | wfinished (success : Bool)
deriving DecidableEq

/-- Events that actually occur while the body runs: the wrapped callbacks
drop log and progress messages once the flag is set; subprocess spawns are
side effects of the body itself, not guarded by anything. -/
def deliver (flag : Bool) : List PAction → List WEvent
  | [] => []
  | .plog s :: r => if flag then deliver flag r else .wlog s :: deliver flag r
  | .pprog c t fn :: r => if flag then deliver flag r else .wprog c t fn :: deliver flag r
  | .pinvoke :: r => .winvoke :: deliver flag r
  | .setStop :: r => deliver true r

/-- The flag state after the trace. -/
def stopSet (flag : Bool) : List PAction → Bool
  | [] => flag
  | .setStop :: r => stopSet true r
  | .plog _ :: r => stopSet flag r
  | .pprog _ _ _ :: r => stopSet flag r
  | .pinvoke :: r => stopSet flag r

/-- Embedding of `ScriptWorker.run`: the body's delivered events, then the
terminal signal.  `result` is the body's return value, or the message of an
uncaught exception. -/
def scriptWorker_run (acts : List PAction) (result : Bool ⊕ String) : List WEvent :=
  deliver false acts ++
    match result with
    | .inl b =>
      if stopSet false acts then [.wlog "✗ Operation cancelled by user", .wfinished false]
      else [.wfinished b]
    | .inr e =>
      (if stopSet false acts then [] else [.wlog ("Error: " ++ e)]) ++ [.wfinished false]

/-- The flag stays clear over a trace without `setStop`. -/
theorem stopSet_of_not_mem {flag : Bool} :
    ∀ {acts : List PAction}, PAction.setStop ∉ acts → stopSet flag acts = flag := by
  intro acts
  induction acts with
  | nil => intro _; rfl
  | cons a r ih =>
    intro h
    cases a with
    | setStop => exact absurd (List.mem_cons_self _ _) h
    | plog s => exact ih (fun hm => h (List.mem_cons_of_mem _ hm))
    | pprog c t fn => exact ih (fun hm => h (List.mem_cons_of_mem _ hm))
    | pinvoke => exact ih (fun hm => h (List.mem_cons_of_mem _ hm))

/-- Delivery splits over concatenation, threading the flag state. -/
theorem deliver_append (flag : Bool) :
    ∀ xs ys : List PAction,
      deliver flag (xs ++ ys) = deliver flag xs ++ deliver (stopSet flag xs) ys := by
  intro xs
  induction xs generalizing flag with
  | nil => intro ys; rfl
  | cons a r ih =>
    intro ys
    cases a with
    | setStop => simpa [deliver, stopSet] using ih true ys
    | plog s => cases flag <;> simp [deliver, stopSet, ih]
    | pprog c t fn => cases flag <;> simp [deliver, stopSet, ih]
    | pinvoke => simp [deliver, stopSet, ih]

/-- The flag state splits over concatenation. -/
theorem stopSet_append (flag : Bool) :
    ∀ xs ys : List PAction, stopSet flag (xs ++ ys) = stopSet (stopSet flag xs) ys := by
  intro xs
  induction xs generalizing flag with
  | nil => intro ys; rfl
  | cons a r ih =>
    intro ys
    cases a <;> simp [stopSet, ih]

/-- Once set, the flag stays set. -/
theorem stopSet_true : ∀ acts : List PAction, stopSet true acts = true := by
  intro acts
  induction acts with
  | nil => rfl
  | cons a r ih => cases a <;> simp [stopSet, ih]

/-- After the flag is set, only subprocess spawns remain observable. -/
theorem deliver_true_only_invoke :
    ∀ acts : List PAction, ∀ e ∈ deliver true acts, e = WEvent.winvoke := by
  intro acts
  induction acts with
  | nil => intro e he; simp [deliver] at he
  | cons a r ih =>
    intro e he
    cases a with
    | setStop => exact ih e (by simpa [deliver] using he)
    | plog s => exact ih e (by simpa [deliver] using he)
    | pprog c t fn => exact ih e (by simpa [deliver] using he)
    | pinvoke =>
      rcases (by simpa [deliver] using he : e = WEvent.winvoke ∨ e ∈ deliver true r) with h | h
      · exact h
      · exact ih e h

/-- The body never emits a terminal signal: `wfinished` cannot appear in a
delivered trace. -/
theorem wfinished_not_mem_deliver (b : Bool) :
    ∀ (flag : Bool) (acts : List PAction), WEvent.wfinished b ∉ deliver flag acts := by
  intro flag acts
  induction acts generalizing flag with
  | nil => simp [deliver]
  | cons a r ih =>
    cases a with
    | setStop => simpa [deliver] using ih true
    | plog s => by_cases hf : flag <;> simp [deliver, hf, ih]
    | pprog c t fn => by_cases hf : flag <;> simp [deliver, hf, ih]
    | pinvoke => simp [deliver, ih]

/-- C10: after the stop flag is set, no log or progress event produced by
the still-running pipeline is delivered (error lines included) — only its
subprocess side effects continue — and once the body returns, the worker
emits the cancellation line and a single `finished(False)` terminal
signal. -/
theorem worker_drops_after_stop_spec :
    ∀ (pre post : List PAction) (res : Bool),
      PAction.setStop ∉ pre →
      scriptWorker_run (pre ++ PAction.setStop :: post) (Sum.inl res)
        = deliver false pre ++ deliver true post
            ++ [WEvent.wlog "✗ Operation cancelled by user", WEvent.wfinished false]
      ∧ (∀ e ∈ deliver true post, e = WEvent.winvoke)
      ∧ (∀ b : Bool,
          WEvent.wfinished b ∉ deliver false pre ++ deliver true post) := by
  intro pre post res hpre
  have hstop : stopSet false (pre ++ PAction.setStop :: post) = true := by
    rw [stopSet_append, stopSet_of_not_mem hpre]
    show stopSet true post = true
    exact stopSet_true post
  refine ⟨?_, deliver_true_only_invoke post, ?_⟩
  · unfold scriptWorker_run
    rw [hstop, deliver_append, stopSet_of_not_mem hpre]
    simp [deliver]
  · intro b
    rw [List.mem_append]
    push_neg
    exact ⟨wfinished_not_mem_deliver b false pre, wfinished_not_mem_deliver b true post⟩

/-- Witness for `worker_drops_after_stop_spec`: one log before the stop,
an error log and a progress event after it. -/
theorem worker_drops_after_stop_spec_witness :
    scriptWorker_run
        ([PAction.plog "a"] ++ PAction.setStop
          :: [PAction.plog "error: x", PAction.pprog 1 2 "f"]) (Sum.inl true)
      = deliver false [PAction.plog "a"]
          ++ deliver true [PAction.plog "error: x", PAction.pprog 1 2 "f"]
          ++ [WEvent.wlog "✗ Operation cancelled by user", WEvent.wfinished false]
    ∧ (∀ e ∈ deliver true [PAction.plog "error: x", PAction.pprog 1 2 "f"],
        e = WEvent.winvoke)
    ∧ (∀ b : Bool,
        WEvent.wfinished b ∉
          deliver false [PAction.plog "a"]
            ++ deliver true [PAction.plog "error: x", PAction.pprog 1 2 "f"]) :=
  worker_drops_after_stop_spec [PAction.plog "a"]
    [PAction.plog "error: x", PAction.pprog 1 2 "f"] true (by decide)

/-- Grace window before forced termination: `QTimer.singleShot(3000, ...)`
in `stop_operation` (source line 5375). -/
def cancelGraceMs : Nat := 3000

/-- Embedding of `force_terminate_worker` (source lines 5379–5387): a
worker still running when the grace timer fires is terminated and reported
through `on_script_finished(False)`; otherwise nothing happens. -/
def force_terminate_worker (stillRunning : Bool) : Option Bool :=
  if stillRunning then some false else none

/-- Count of subprocess spawns in the delivered trace. -/
theorem deliver_invoke_count :
    ∀ (flag : Bool) (acts : List PAction),
      (deliver flag acts).countP (fun e => e == WEvent.winvoke)
        = acts.countP (fun a => a == PAction.pinvoke) := by
  intro flag acts
  induction acts generalizing flag with
  | nil => rfl
  | cons a r ih =>
    cases a with
    | setStop => simp [deliver, List.countP_cons, ih]
    | plog s => by_cases hf : flag <;> simp [deliver, hf, List.countP_cons, ih]
    | pprog c t fn => by_cases hf : flag <;> simp [deliver, hf, List.countP_cons, ih]
    | pinvoke => simp [deliver, List.countP_cons, ih]

/-- C4 counterexample: a stop requested before the batch starts does not
stop the pipeline at any safe point — both item subprocesses still run
(two `winvoke` events follow the `setStop`), refuting the claimed
cooperative checks between items and per streamed line. -/
theorem pipeline_ignores_stop_cex :
    scriptWorker_run [PAction.setStop, PAction.pinvoke, PAction.pinvoke] (Sum.inl true)
      = [WEvent.winvoke, WEvent.winvoke,
         WEvent.wlog "✗ Operation cancelled by user", WEvent.wfinished false]
    ∧ (scriptWorker_run [PAction.setStop, PAction.pinvoke, PAction.pinvoke]
          (Sum.inl true)).countP (fun e => e == WEvent.winvoke) = 2
    ∧ (2 : Nat) ≠ 0 := by decide

/-- C4 amended: `requestCancel` (the worker's stop flag) is never polled by
the pipeline body — every subprocess invocation of the body still occurs no
matter when stop was requested; the flag only suppresses log/progress
delivery.  The UI schedules forced termination a fixed 3000 ms after the
stop request, and a worker still running when the timer fires is terminated
and reported not successful. -/
theorem cancellation_spec :
    (∀ (acts : List PAction) (res : Bool),
      (scriptWorker_run acts (Sum.inl res)).countP (fun e => e == WEvent.winvoke)
        = acts.countP (fun a => a == PAction.pinvoke))
    ∧ cancelGraceMs = 3000
    ∧ force_terminate_worker true = some false
    ∧ force_terminate_worker false = none := by
  refine ⟨fun acts res => ?_, rfl, rfl, rfl⟩
  unfold scriptWorker_run
  rw [List.countP_append, deliver_invoke_count]
  by_cases h : stopSet false acts <;> by_cases hr : res <;> simp [h, hr, List.countP_cons]

/-! ## `clean_log_line` (source lines 433–521) and the translate stream loop

The function cleans one raw output line of the subtitle translator:
1. `re.sub(r'\033\[[0-9;]*[a-zA-Z]', '', line)`, then removal of the two
   cursor sequences `\033[F` and `\033[K`;
2. lines blank after cleaning are dropped;
3. *error priority*: if the lowercased cleaned line contains any of a fixed
   keyword/glyph list, it is returned immediately as `"    ⚠ " + strip`,
   before any suppression rule below;
4. suppression of three noisy markers; reformatting of
   `Starting translation of N lines` and of `Translating: …P% (c/t)…`
   progress lines (with a status extracted after the last `|`, a
   `gemini-…` model token removed, and a spinner looked up for
   `Thinking`/`Processing`); a success line becomes a fixed message;
   anything else is returned stripped.

The streaming loop of `translate_subtitles` (source lines 1104–1122) logs a
cleaned line only when it differs from the previously logged one. -/

/-- If `l` begins with an ANSI escape `ESC [ [0-9;]* letter` (the regex
`\033\[[0-9;]*[a-zA-Z]`), return the remainder after the match. -/
def ansiMatchAt : List Char → Option (List Char)
  | '\x1b' :: '[' :: r1 =>
    match r1.dropWhile (fun d => d.isDigit || d == ';') with
    | a :: r2 => if a.isAlpha then some r2 else none
    | [] => none
  | _ => none

/-- `re.sub(r'\033\[[0-9;]*[a-zA-Z]', '', line)`: scan left to right,
removing each escape sequence, advancing one character where none matches.
Structural recursion on a fuel bounded by the list length — every step
consumes at least one character, so the bound is never reached. -/
def stripAnsiF : Nat → List Char → List Char
  | _, [] => []
  | 0, l => l
  | fuel + 1, c :: rest =>
    match ansiMatchAt (c :: rest) with
    | some r2 => stripAnsiF fuel r2
    | none => c :: stripAnsiF fuel rest

/-- The ANSI-stripping pass. -/
def stripAnsi (l : List Char) : List Char := stripAnsiF l.length l

/-- Python `str.replace(pat, '')`: remove the occurrences of `pat`, left to
right, non-overlapping.  Fuel as in `stripAnsiF`. -/
def removeAllF (pat : List Char) : Nat → List Char → List Char
  | _, [] => []
  | 0, l => l
  | fuel + 1, c :: rest =>
    if pat.isEmpty then c :: removeAllF pat fuel rest
    else if listStartsWith pat (c :: rest) then
      removeAllF pat fuel ((c :: rest).drop pat.length)
    else c :: removeAllF pat fuel rest

/-- Removal of every occurrence of `pat`. -/
def removeAll (pat l : List Char) : List Char := removeAllF pat l.length l

/-- The cleaning preamble (source lines 444–447): strip ANSI escapes, then
remove the cursor sequences `ESC [ F` and `ESC [ K`. -/
def cleanPre (l : List Char) : List Char :=
  removeAll ['\x1b', '[', 'K'] (removeAll ['\x1b', '[', 'F'] (stripAnsi l))

/-- The error keyword/glyph list of `clean_log_line` (source lines
454–458), in source order. -/
def errorKeywords : List (List Char) :=
  ["error".data, "failed".data, "exception".data, "warning".data, "warn".data,
   "fail".data, "✗".data, "⚠".data, "❌".data, "critical".data, "fatal".data,
   "unable".data, "cannot".data, "not found".data, "missing".data, "invalid".data,
   "denied".data, "timeout".data]

/-- `any(keyword in line.lower() for keyword in [...])`. -/
def isErrorLine (l : List Char) : Bool :=
  errorKeywords.any (fun kw => containsSub (pyLowerL l) kw)

/-- Match of `Starting translation of (\d+) lines` anchored at the head:
the literal prefix, a nonempty digit run (greedy; backtracking cannot help
since a digit would then precede the space), then ` lines`.  Returns the
digit group. -/
def startTransAt (l : List Char) : Option (List Char) :=
  if listStartsWith "Starting translation of ".data l then
    let r := l.drop "Starting translation of ".data.length
    let ds := r.takeWhile Char.isDigit
    let r2 := r.dropWhile Char.isDigit
    if ds.isEmpty then none
    else if listStartsWith " lines".data r2 then some ds else none
  else none

/-- `re.search` of the previous pattern: leftmost match. -/
def searchStartTrans : List Char → Option (List Char)
  | [] => none
  | c :: rest =>
    match startTransAt (c :: rest) with
    | some ds => some ds
    | none => searchStartTrans rest

/-- Match of `(\d+)% \((\d+)/(\d+)\)` anchored at the head: three greedy
digit runs separated by the literal glue (shrinking a run would leave a
digit where `%`, `/` or `)` is required, so backtracking cannot produce a
different match). -/
def pctTripleAt (l : List Char) : Option (List Char × List Char × List Char) :=
  let ds1 := l.takeWhile Char.isDigit
  let r1 := l.dropWhile Char.isDigit
  if ds1.isEmpty then none
  else
    match r1 with
    | '%' :: ' ' :: '(' :: r2 =>
      let ds2 := r2.takeWhile Char.isDigit
      let r3 := r2.dropWhile Char.isDigit
      if ds2.isEmpty then none
      else
        match r3 with
        | '/' :: r4 =>
          let ds3 := r4.takeWhile Char.isDigit
          let r5 := r4.dropWhile Char.isDigit
          if ds3.isEmpty then none
          else
            match r5 with
            | ')' :: _ => some (ds1, ds2, ds3)
            | _ => none
        | _ => none
    | _ => none

/-- Leftmost match of the percent triple. -/
def searchPctTriple : List Char → Option (List Char × List Char × List Char)
  | [] => none
  | c :: rest =>
    match pctTripleAt (c :: rest) with
    | some g => some g
    | none => searchPctTriple rest

/-- `re.search(r'Translating:.*?(\d+)% \((\d+)/(\d+)\)', line)`: the match
starts at the first `Translating:` followed (anywhere later, `.*?` lazy) by
a percent triple, which is then the earliest such triple.  (A later
`Translating:` cannot succeed where an earlier one failed, since any triple
after it also lies after the earlier one.) -/
def searchTransProgress : List Char → Option (List Char × List Char × List Char)
  | [] => none
  | c :: rest =>
    if listStartsWith "Translating:".data (c :: rest) then
      match searchPctTriple ((c :: rest).drop "Translating:".data.length) with
      | some g => some g
      | none => searchTransProgress rest
    else searchTransProgress rest

/-- `re.sub(r'gemini-[^\s]+', '', s)`: remove each `gemini-` followed by a
nonempty greedy run of non-whitespace characters.  Fuel as in
`stripAnsiF`. -/
def geminiSubF : Nat → List Char → List Char
  | _, [] => []
  | 0, l => l
  | fuel + 1, c :: rest =>
    if listStartsWith "gemini-".data (c :: rest)
        && !(((c :: rest).drop 7).takeWhile (fun d => !d.isWhitespace)).isEmpty then
      geminiSubF fuel (((c :: rest).drop 7).dropWhile (fun d => !d.isWhitespace))
    else c :: geminiSubF fuel rest

/-- Removal of every `gemini-…` model token. -/
def geminiSub (l : List Char) : List Char := geminiSubF l.length l

/-- Match of `(Thinking|Processing)\s*([—\\|/])` anchored at the head:
either word, greedy whitespace, then a spinner glyph (backtracking the
whitespace run cannot help, since a whitespace character is never a glyph).
Returns the first group. -/
def spinnerAt (l : List Char) : Option (List Char) :=
  let tryWord := fun (w : List Char) =>
    if listStartsWith w l then
      match (l.drop w.length).dropWhile Char.isWhitespace with
      | d :: _ =>
        if d == '—' || d == '\\' || d == '|' || d == '/' then some w else none
      | [] => none
    else none
  match tryWord "Thinking".data with
  | some w => some w
  | none => tryWord "Processing".data

/-- Leftmost spinner match. -/
def searchSpinner : List Char → Option (List Char)
  | [] => none
  | c :: rest =>
    match spinnerAt (c :: rest) with
    | some w => some w
    | none => searchSpinner rest

/-- The status extraction of the `Translating:` branch (source lines
492–508): take the text after the last `|`, strip it, drop a `gemini-…`
model token, and special-case the spinner words; `Sending batch` and an
empty remainder leave the status empty. -/
def transStatus (l : List Char) : List Char :=
  let parts := pySplit '|' l
  if parts.length > 1 then
    let lastPart := pyStripL (parts.getLastD [])
    let lastPart := pyStripL (geminiSub lastPart)
    if !lastPart.isEmpty
        && !(lastPart == "Thinking".data) && !(lastPart == "Processing".data)
        && !(lastPart == "Sending batch".data) then
      lastPart
    else if lastPart == "Thinking".data || lastPart == "Processing".data then
      match searchSpinner l with
      | some w => w ++ "...".data
      | none => lastPart ++ "...".data
    else []
  else []

/-- Embedding of `clean_log_line`: `none` is Python's `None` (line
dropped); `some` carries the cleaned line's characters. -/
def clean_log_line (line : String) : Option (List Char) :=
  if line.data.isEmpty then none
  else
    let l := cleanPre line.data
    if (pyStripL l).isEmpty then none
    else if isErrorLine l then some ("    ⚠ ".data ++ pyStripL l)
    else if containsSub l "Validating token size...".data then none
    else if containsSub l "Token size validated. Translating...".data then none
    else if containsSub l "Starting with".data && containsSub l "API Key".data then none
    else
      match
        (if containsSub l "Starting translation of".data
            && containsSub l "lines...".data then
          searchStartTrans l
        else none) with
      | some ds => some ("    Starting translation of ".data ++ ds ++ " lines...".data)
      | none =>
        match
          (if containsSub l "Translating:".data && containsSub l ['|'] then
            searchTransProgress l
          else none) with
        | some (p, cur, tot) =>
          let status := transStatus l
          if status.isEmpty then
            some ("    Progress: ".data ++ p ++ "% (".data ++ cur ++ "/".data
              ++ tot ++ " lines)".data)
          else
            some ("    Progress: ".data ++ p ++ "% (".data ++ cur ++ "/".data
              ++ tot ++ " lines) - ".data ++ status)
        | none =>
          if containsSub l "✅".data
              || containsSub l "Translation completed successfully".data then
            some "    ✓ Translation completed successfully!".data
          else some (pyStripL l)

/-- One step of the streamed logging loop of `translate_subtitles` (source
lines 1104–1122): the state is the previously logged cleaned line; the raw
line is cleaned, and logged only when the cleaned form differs from the
previous logged line.  Returns the new state and the emission, if any. -/
def translateLogStep (last : Option (List Char)) (raw : String) :
    Option (List Char) × Option (List Char) :=
  match clean_log_line raw with
  | some cl => if some cl ≠ last then (some cl, some cl) else (last, none)
  | none => (last, none)

/-- Per-line emissions of the translate streaming loop over a list of raw
lines. -/
def translateEmissions (lines : List String) : List (Option (List Char)) :=
  (lines.foldl
    (fun (acc : Option (List Char) × List (Option (List Char))) raw =>
      let s := translateLogStep acc.1 raw
      (s.1, acc.2 ++ [s.2]))
    (none, [])).2

/-- The keyword/glyph set named by the claim (stated from the spec's words,
for comparison with the source's `errorKeywords`): error, failed,
exception, warning, timeout, denied, missing, invalid, cannot, not found,
critical, fatal, and the failure glyphs. -/
def claimErrorKeywords : List (List Char) :=
  ["error".data, "failed".data, "exception".data, "warning".data, "timeout".data,
   "denied".data, "missing".data, "invalid".data, "cannot".data, "not found".data,
   "critical".data, "fatal".data, "✗".data, "⚠".data, "❌".data]

/-- Every claimed keyword is in the source's list. -/
theorem claim_kw_subset : ∀ kw ∈ claimErrorKeywords, kw ∈ errorKeywords := by decide

/-- C6 counterexample: the translate loop's consecutive-duplicate rule
suppresses even error lines — two identical lines containing "failed"
produce one emission and then `none`, so not every such raw line is
surfaced. -/
theorem error_line_dedup_cex :
    containsSub (pyLowerL "translation failed: quota".data) "failed".data = true
    ∧ translateEmissions ["translation failed: quota", "translation failed: quota"]
        = [some "    ⚠ translation failed: quota".data, none] := by decide

/-- C6 amended: a line whose lowercased text — after control-sequence
stripping — contains any member of the claimed keyword/glyph set is
returned by `clean_log_line` as an error-marked line (`"    ⚠ "` followed
by the stripped line), bypassing every suppression and reformatting rule of
that function; in particular a line containing both a suppressed noisy
marker and the word "failed" is surfaced with the error marker.  In the
translate streaming loop, however, emission is additionally subject to
consecutive-duplicate suppression: the cleaned error line is logged iff it
differs from the previously logged line. -/
theorem error_priority_spec :
    (∀ (s : String) (kw : List Char), kw ∈ claimErrorKeywords →
      containsSub (pyLowerL (cleanPre s.data)) kw = true →
      s.data.isEmpty = false →
      (pyStripL (cleanPre s.data)).isEmpty = false →
      clean_log_line s = some ("    ⚠ ".data ++ pyStripL (cleanPre s.data)))
    ∧ (∀ (last : Option (List Char)) (s : String) (kw : List Char),
        kw ∈ claimErrorKeywords →
        containsSub (pyLowerL (cleanPre s.data)) kw = true →
        s.data.isEmpty = false →
        (pyStripL (cleanPre s.data)).isEmpty = false →
        (some ("    ⚠ ".data ++ pyStripL (cleanPre s.data)) ≠ last →
          translateLogStep last s
            = (some ("    ⚠ ".data ++ pyStripL (cleanPre s.data)),
               some ("    ⚠ ".data ++ pyStripL (cleanPre s.data))))
        ∧ (some ("    ⚠ ".data ++ pyStripL (cleanPre s.data)) = last →
          translateLogStep last s = (last, none))) := by
  have main : ∀ (s : String) (kw : List Char), kw ∈ claimErrorKeywords →
      containsSub (pyLowerL (cleanPre s.data)) kw = true →
      s.data.isEmpty = false →
      (pyStripL (cleanPre s.data)).isEmpty = false →
      clean_log_line s = some ("    ⚠ ".data ++ pyStripL (cleanPre s.data)) := by
    intro s kw hkw hcont hne hstrip
    have herr : isErrorLine (cleanPre s.data) = true :=
      List.any_eq_true.mpr ⟨kw, claim_kw_subset kw hkw, hcont⟩
    unfold clean_log_line
    simp only [hne, herr, hstrip, Bool.false_eq_true, if_false, if_true]
  refine ⟨main, fun last s kw hkw hcont hne hstrip => ⟨fun hne' => ?_, fun heq => ?_⟩⟩
  · simp only [translateLogStep, main s kw hkw hcont hne hstrip]
    rw [if_pos hne']
  · simp only [translateLogStep, main s kw hkw hcont hne hstrip]
    rw [if_neg (not_not_intro heq)]

/-- Witness for `error_priority_spec`: a line carrying both the suppressed
marker "Validating token size..." and the keyword "failed" is surfaced with
the error marker, and emitted by the loop when it differs from the last
logged line. -/
theorem error_priority_spec_witness :
    clean_log_line "Validating token size... failed"
      = some ("    ⚠ ".data ++ pyStripL (cleanPre "Validating token size... failed".data))
    ∧ translateLogStep none "Validating token size... failed"
        = (some ("    ⚠ ".data
             ++ pyStripL (cleanPre "Validating token size... failed".data)),
           some ("    ⚠ ".data
             ++ pyStripL (cleanPre "Validating token size... failed".data))) :=
  ⟨error_priority_spec.1 _ "failed".data (by decide) (by decide) (by decide) (by decide),
   (error_priority_spec.2 none _ "failed".data (by decide) (by decide) (by decide)
      (by decide)).1 (by decide)⟩
